import Mathlib

/-!
Shallow embedding of `src/app.py` (SAF AI Ticket Intelligence Platform,
a Streamlit dashboard), and proofs about its derivation pipeline,
KPI arithmetic, startup check and per-row action handlers.

Modelling conventions:
* Machine floats appear in two places.  In the derivation pipeline a
  pandas cell that is missing (`NaN`) is modelled as `Option.none`;
  every comparison of `NaN` with a number is `False` in Python, which
  is reflected where the model consumes such a cell.  In the KPI
  automation percentage, Python's true division of two ints and the
  subsequent multiplication by `100` are correctly-rounded IEEE-754
  binary64 operations; these are modelled exactly over `ℕ`/`ℤ`
  (round-to-nearest, ties-to-even, on values far inside the normal
  range, so neither overflow nor subnormals can occur).
* pandas `DataFrame.get(col, default)` returns the `default` only when
  the whole column is absent, i.e. when no record of the batch carries
  the field; otherwise the column is returned with `NaN` in the cells
  of records that lack the field.  `pd.DataFrame(records).empty` is
  true when the records list is empty or no record has any field
  (no columns).
* `Series.replace(dict)` rewrites exact full-cell matches and leaves
  `NaN` cells alone; a plain Python string has no `replace(dict)`
  overload (`str.replace` wants two string arguments), so when the
  `bot` column is absent `df.get("bot", "ManualReview").replace({...})`
  raises a `TypeError` and the classify handler dies before storing
  anything.
-/

namespace AtosAI

set_option maxRecDepth 100000

/-! ### Helpers (app.py lines 41–48) -/

/-- `confidence_band` of app.py lines 41–48, on exact rationals. -/
def confidence_band (conf : ℚ) : String :=
  if conf < 70 then "LOW"
  else if conf < 85 then "MEDIUM"
  else if conf < 95 then "HIGH"
  else "VERY_HIGH"

/-- A pandas cell holding a confidence: `none` models `NaN` (record had
no such field while other records did).  Every `NaN < x` comparison is
`False` in Python, so `confidence_band(NaN)` falls through all three
tests and returns `"VERY_HIGH"`. -/
def bandCell : Option ℚ → String
  | some c => confidence_band c
  | none => "VERY_HIGH"

/-! ### Data model -/

/-- A raw ticket record from the classification service (app.py line 78
builds `pd.DataFrame(r.json().get("results", []))` from these).  Each
field is optional: the service may omit any of them. -/
structure RawRecord where
  predicted_category : Option String
  reasoning : Option String
  bot : Option String
  confidence : Option ℚ
  ticket_id : Option String
deriving DecidableEq, Repr

/-- A derived row as stored in `st.session_state.results_df`
(app.py lines 83–93).  `Option` fields model pandas cells that can be
`NaN`. -/
structure Row where
  predicted_category : Option String
  reasoning : Option String
  bot : Option String
  confidence : Option ℚ
  confidence_band : String
  ticket_id : Option String
deriving DecidableEq, Repr

/-! ### Derivation pipeline (app.py lines 75–93) -/

/-- Value-level bot canonicalization: the dict of the
`Series.replace` call at app.py lines 88–91, which rewrites exact
matches and passes every other value through. -/
def canonicalize (s : String) : String :=
  if s = "Pega Bot" then "CancelGWSSCases"
  else if s = "Mendix Bot" then "RMS_India_Mendix"
  else s

/-- Whether any record of the batch carries a `confidence` field, i.e.
whether `pd.DataFrame(batch)` has a `confidence` column. -/
def hasConfCol (batch : List RawRecord) : Bool :=
  batch.any fun r => r.confidence.isSome

/-- Whether the `ticket_id` column exists. -/
def hasTidCol (batch : List RawRecord) : Bool :=
  batch.any fun r => r.ticket_id.isSome

/-- Whether the `bot` column exists. -/
def hasBotCol (batch : List RawRecord) : Bool :=
  batch.any fun r => r.bot.isSome

/-- A record carrying no field at all contributes no column. -/
def RawRecord.isBlank (r : RawRecord) : Bool :=
  r.predicted_category.isNone && r.reasoning.isNone && r.bot.isNone &&
    r.confidence.isNone && r.ticket_id.isNone

/-- `pd.DataFrame(batch).empty` (app.py line 80): true when an axis has
length 0, i.e. the list is empty or no record has any field. -/
def dfEmpty (batch : List RawRecord) : Bool :=
  batch.isEmpty || batch.all fun r => r.isBlank

/-- One derived row, given which columns exist in the batch and the
0-based position of the record (app.py lines 83–91):
`confidence` comes from the column or is the broadcast default 80;
`ticket_id` comes from the column or is the synthesized
`f"TKT-{i+1}"`; `bot` cells go through the replace dict, `NaN`
(`none`) cells staying `NaN`. -/
def deriveRow (hasConf hasTid : Bool) (i : ℕ) (r : RawRecord) : Row :=
  let conf : Option ℚ := if hasConf then r.confidence else some 80
  { predicted_category := r.predicted_category
    reasoning := r.reasoning
    bot := r.bot.map canonicalize
    confidence := conf
    confidence_band := bandCell conf
    ticket_id := if hasTid then r.ticket_id
                 else some ("TKT-" ++ toString (i + 1)) }

/-- Derive all rows, numbering records from `i`. -/
def deriveAux (hasConf hasTid : Bool) (i : ℕ) :
    List RawRecord → List Row
  | [] => []
  | r :: rs => deriveRow hasConf hasTid i r ::
      deriveAux hasConf hasTid (i + 1) rs

/-- The full derivation of app.py lines 83–91 on a batch that passed
the `df.empty` test.  When no record has a `bot` field, `df.get("bot",
"ManualReview")` yields the plain string `"ManualReview"` and calling
`.replace({...})` on it with a dict raises a `TypeError`, so the
handler fails and nothing is derived. -/
def derive (batch : List RawRecord) : Except String (List Row) :=
  if hasBotCol batch then
    .ok (deriveAux (hasConfCol batch) (hasTidCol batch) 0 batch)
  else
    .error "TypeError: replace expected at least 2 arguments, got 1"

/-! ### Session state and the classify action (app.py lines 34–36, 75–93) -/

/-- `st.session_state` slots used by the app (app.py lines 34–36), each
initialized to `None`. -/
structure SessionState where
  job_id : Option String
  file_uploaded : Option Bool
  results_df : Option (List Row)
deriving DecidableEq, Repr

/-- Outcome of the classify button handler. -/
inductive ClassifyOutcome where
  | warned
  | stored
  | crashed (msg : String)
deriving DecidableEq, Repr

/-- The classify handler (app.py lines 75–93) applied to the `results`
list of the service response: an empty DataFrame only warns (line 81)
and stores nothing; otherwise the derivation runs and, on success, the
row set is stored (line 93), overwriting the previous one. -/
def classifyAction (results : List RawRecord) (s : SessionState) :
    ClassifyOutcome × SessionState :=
  if dfEmpty results then (.warned, s)
  else
    match derive results with
    | .ok rows => (.stored, { s with results_df := some rows })
    | .error m => (.crashed m, s)

/-! ### Startup configuration check (app.py lines 11–18) -/

/-- Python truthiness of an environment value: `os.getenv` returns
`None` when the variable is unset, and `all([...])` also rejects an
empty string. -/
def truthy : Option String → Bool
  | none => false
  | some s => s ≠ ""

/-- Result of the startup check: `halt` models `st.error(...)` followed
by `st.stop()` at app.py lines 17–18, which ends the script run before
any later statement (page setup, title, all dashboard UI at lines
23 onward) executes. -/
inductive StartupResult where
  | halt (msg : String)
  | proceed
deriving DecidableEq, Repr

/-- The check at app.py lines 16–18 on the four configured URLs. -/
def startupCheck (uploadUrl classifyUrl feedbackUrl approveUrl :
    Option String) : StartupResult :=
  if truthy uploadUrl && truthy classifyUrl && truthy feedbackUrl &&
      truthy approveUrl then
    .proceed
  else
    .halt "❌ Missing environment variables. Please configure Streamlit Secrets."

/-! ### Per-row approve / reject handlers (app.py lines 166–200) -/

/-- JSON body of the approve POST (app.py lines 171–175). -/
structure ApprovePayload where
  ticketId : Option String
  botName : Option String
  approvedBy : String
deriving DecidableEq, Repr

/-- JSON body of the feedback POST (app.py lines 193–198). -/
structure FeedbackPayload where
  ticket_id : Option String
  correct_category : String
  keywords : List String
  bot_name : String
deriving DecidableEq, Repr

/-- Helper for `pySplit`: walk the characters, collecting the current
word (in reverse) in `acc`; whitespace closes the word, and runs of
whitespace produce no empty words. -/
def wsplitAux : List Char → List Char → List String
  | [], acc => if acc = [] then [] else [String.mk acc.reverse]
  | c :: cs, acc =>
    if c.isWhitespace then
      if acc = [] then wsplitAux cs []
      else String.mk acc.reverse :: wsplitAux cs []
    else wsplitAux cs (c :: acc)

/-- Python `str.split()` with no argument: split on runs of whitespace,
dropping leading/trailing whitespace and empty pieces, order of the
words preserved. -/
def pySplit (s : String) : List String :=
  wsplitAux s.data []

/-- The approve payload built from a row (app.py lines 171–175). -/
def approvePayloadOf (row : Row) : ApprovePayload :=
  { ticketId := row.ticket_id
    botName := row.bot
    approvedBy := "HITL_User" }

/-- The feedback payload built from a row and the two correction
widgets (app.py lines 193–198). -/
def rejectPayloadOf (row : Row) (new_cat new_bot : String) :
    FeedbackPayload :=
  { ticket_id := row.ticket_id
    correct_category := new_cat
    keywords := pySplit new_cat
    bot_name := new_bot }

/-- The approve button handler (app.py lines 166–178): posts the
payload and touches no session state. -/
def approveAction (row : Row) (s : SessionState) :
    ApprovePayload × SessionState :=
  (approvePayloadOf row, s)

/-- The reject button handler (app.py lines 190–200): posts the
payload and touches no session state. -/
def rejectAction (row : Row) (new_cat new_bot : String)
    (s : SessionState) : FeedbackPayload × SessionState :=
  (rejectPayloadOf row new_cat new_bot, s)

/-! ### Exact model of the binary64 arithmetic in the automation KPI

The KPI line (app.py line 108) computes
`int(len(df[df.bot != 'ManualReview']) / len(df) * 100)`.  In Python,
`int / int` is the correctly rounded IEEE-754 binary64 quotient,
`* 100` a correctly rounded binary64 product (100 is exactly
representable), and `int(...)` truncates toward zero.  Both intermediate
values lie far inside the binary64 normal range (the quotient is in
`(0, 1]` for a nonzero count and at least `1/len`, the product in
`(0, 100]`), so correct rounding is exactly round-to-nearest,
ties-to-even, at 53 bits of precision, which the functions below
compute over `ℕ`/`ℤ`. -/

/-- Floor of the base-2 logarithm, via structural recursion on fuel. -/
def log2fuel : ℕ → ℕ → ℕ
  | 0, _ => 0
  | f + 1, n => if n < 2 then 0 else log2fuel f (n / 2) + 1

/-- `⌊log2 n⌋` for `n ≥ 1` (and 0 for `n = 0`). -/
def ilog2 (n : ℕ) : ℕ := log2fuel n n

/-- Decide `2 ^ e ≤ n / d` by an integer comparison (`n, d ≥ 1`). -/
def le2pow (e : ℤ) (n d : ℕ) : Bool :=
  if 0 ≤ e then d * 2 ^ e.toNat ≤ n else d ≤ n * 2 ^ (-e).toNat

/-- `⌊log2 (n / d)⌋` for `n, d ≥ 1`. -/
def flog2 (n d : ℕ) : ℤ :=
  if le2pow ((ilog2 n : ℤ) - (ilog2 d : ℤ)) n d then
    (ilog2 n : ℤ) - (ilog2 d : ℤ)
  else
    (ilog2 n : ℤ) - (ilog2 d : ℤ) - 1

/-- Round `p / q` (`q ≥ 1`) to the nearest integer, ties to even. -/
def rndNE (p q : ℕ) : ℕ :=
  if 2 * (p % q) < q then p / q
  else if q < 2 * (p % q) then p / q + 1
  else if (p / q) % 2 = 0 then p / q else p / q + 1

/-- Correctly round the positive rational `n / d` to binary64
(normal range): the result is the pair `(m, k)` of the 53-bit mantissa
and the exponent, with value `m · 2 ^ k`. -/
def roundFrac (n d : ℕ) : ℕ × ℤ :=
  let e := flog2 n d
  let p := if 0 ≤ 52 - e then n * 2 ^ (52 - e).toNat else n
  let q := if 0 ≤ 52 - e then d else d * 2 ^ (e - 52).toNat
  (rndNE p q, e - 52)

/-- Exact rational value of a mantissa/exponent pair. -/
def dval (mk : ℕ × ℤ) : ℚ := (mk.1 : ℚ) * (2 : ℚ) ^ mk.2

/-- Truncation toward zero of the (nonnegative) value of a
mantissa/exponent pair — Python `int(...)` applied to the double. -/
def displayDval (mk : ℕ × ℤ) : ℕ :=
  if 0 ≤ mk.2 then mk.1 * 2 ^ mk.2.toNat else mk.1 / 2 ^ (-mk.2).toNat

/-- Python `int(a / t * 100)` for nonnegative ints `a ≤ t`, `t ≥ 1`,
computed exactly: round `a / t` to binary64, multiply by 100 and round
again, then truncate. -/
def pyPct (a t : ℕ) : ℕ :=
  if a = 0 then 0
  else
    let r1 := roundFrac a t
    let n2 := if 0 ≤ r1.2 then r1.1 * 100 * 2 ^ r1.2.toNat else r1.1 * 100
    let d2 := if 0 ≤ r1.2 then 1 else 2 ^ (-r1.2).toNat
    displayDval (roundFrac n2 d2)

/-- `len(df[df.bot != 'ManualReview'])` (app.py line 108).  A `NaN`
`bot` cell compares unequal to the string, so it counts as automated,
which `none ≠ some "ManualReview"` reproduces. -/
def autoCount (rows : List Row) : ℕ :=
  (rows.filter fun r => r.bot ≠ some "ManualReview").length

/-- The automation percentage displayed by the KPI dashboard
(app.py lines 106–109). -/
def pyAutomationPct (rows : List Row) : ℕ :=
  pyPct (autoCount rows) rows.length

/-! ### Sample data used by witnesses and counterexamples -/

/-- A sample derived row (the end-to-end scenario of the spec). -/
def sampleRow : Row :=
  { predicted_category := some "Cancellation"
    reasoning := some "matched cancellation keywords"
    bot := some "CancelGWSSCases"
    confidence := some 96
    confidence_band := "VERY_HIGH"
    ticket_id := some "TKT-1" }

/-- A row agreeing with `sampleRow` on `ticket_id` and `bot` but
differing everywhere else. -/
def sampleRow' : Row :=
  { predicted_category := some "Billing"
    reasoning := some "different reasoning"
    bot := some "CancelGWSSCases"
    confidence := some 10
    confidence_band := "LOW"
    ticket_id := some "TKT-1" }

/-- A sample session state. -/
def sampleState : SessionState :=
  { job_id := some "job-42"
    file_uploaded := some true
    results_df := some [sampleRow] }

/-- A batch whose second record has no `confidence` field while the
first one does, so the `confidence` column exists with a `NaN` cell. -/
def c3Batch : List RawRecord :=
  [⟨none, none, some "BotX", some 50, none⟩,
   ⟨none, none, some "BotY", none, none⟩]

/-- What the code derives from `c3Batch`. -/
def c3Rows : List Row :=
  [⟨none, none, some "BotX", some 50, "LOW", some "TKT-1"⟩,
   ⟨none, none, some "BotY", none, "VERY_HIGH", some "TKT-2"⟩]

/-- A batch in which no record has a `confidence` field. -/
def c3ABatch : List RawRecord :=
  [⟨none, none, some "Pega Bot", none, none⟩]

/-- The row the code derives from `c3ABatch`. -/
def c3ARow : Row :=
  ⟨none, none, some "CancelGWSSCases", some 80, "MEDIUM", some "TKT-1"⟩

/-- A batch whose second record has no `bot` field while the first one
does, so the `bot` column exists with a `NaN` cell. -/
def c4Mixed : List RawRecord :=
  [⟨none, none, some "Pega Bot", some 50, none⟩,
   ⟨none, none, none, some 90, none⟩]

/-- What the code derives from `c4Mixed`. -/
def c4MixedRows : List Row :=
  [⟨none, none, some "CancelGWSSCases", some 50, "LOW", some "TKT-1"⟩,
   ⟨none, none, none, some 90, "HIGH", some "TKT-2"⟩]

/-- A non-empty batch in which no record has a `bot` field. -/
def c4NoBot : List RawRecord :=
  [⟨none, none, none, some 50, none⟩]

/-- A batch in which no record has a `ticket_id` field. -/
def c5Batch : List RawRecord :=
  [⟨none, none, some "Pega Bot", some 96, none⟩,
   ⟨none, none, none, some 40, none⟩]

/-- What the code derives from `c5Batch`. -/
def c5Rows : List Row :=
  [⟨none, none, some "CancelGWSSCases", some 96, "VERY_HIGH", some "TKT-1"⟩,
   ⟨none, none, none, some 40, "LOW", some "TKT-2"⟩]

/-- A derived row routed to manual review. -/
def manualRow : Row :=
  ⟨some "Other", some "no bot matched", some "ManualReview", some 60,
    "LOW", some "TKT-2"⟩

/-- The spec's 10-row KPI example: 7 automated rows, 3 manual. -/
def rows10 : List Row :=
  List.replicate 7 sampleRow ++ List.replicate 3 manualRow

/-- A 100-row batch with 29 automated rows and 71 manual ones. -/
def rows100 : List Row :=
  List.replicate 29 sampleRow ++ List.replicate 71 manualRow

/-! ### Auxiliary lemmas -/

/-- Specification of `log2fuel`: with enough fuel it brackets `n`
between consecutive powers of two. -/
theorem log2fuel_spec : ∀ f n : ℕ, 1 ≤ n → n ≤ f →
    2 ^ log2fuel f n ≤ n ∧ n < 2 ^ (log2fuel f n + 1) := by
  intro f
  induction f with
  | zero => intro n h1 h2; omega
  | succ f ih =>
    intro n h1 h2
    by_cases hn : n < 2
    · have hn1 : n = 1 := by omega
      subst hn1
      simp [log2fuel]
    · simp only [log2fuel, if_neg hn]
      have hrec := ih (n / 2) (by omega) (by omega)
      set L := log2fuel f (n / 2) with hL
      obtain ⟨hl, hu⟩ := hrec
      have e1 : (2 : ℕ) ^ (L + 1) = 2 * 2 ^ L := by ring
      have e2 : (2 : ℕ) ^ (L + 1 + 1) = 2 * 2 ^ (L + 1) := by ring
      exact ⟨by omega, by omega⟩

/-- `ilog2` brackets every positive `n` between consecutive powers of
two. -/
theorem ilog2_spec (n : ℕ) (h : 1 ≤ n) :
    2 ^ ilog2 n ≤ n ∧ n < 2 ^ (ilog2 n + 1) :=
  log2fuel_spec n n h le_rfl

/-- `le2pow` decides `2 ^ e ≤ n / d` over ℚ. -/
theorem le2pow_iff (e : ℤ) (n d : ℕ) (hd : 1 ≤ d) :
    le2pow e n d = true ↔ (2 : ℚ) ^ e ≤ (n : ℚ) / d := by
  have hd0 : (0 : ℚ) < (d : ℚ) := by exact_mod_cast hd
  rw [le2pow]
  split_ifs with he
  · rw [decide_eq_true_eq]
    have h2 : (2 : ℚ) ^ e = ((2 ^ e.toNat : ℕ) : ℚ) := by
      have hcast : ((2 ^ e.toNat : ℕ) : ℚ) = (2 : ℚ) ^ (e.toNat : ℕ) := by
        push_cast
        ring
      rw [hcast, ← zpow_natCast (2 : ℚ) e.toNat]
      congr 1
      omega
    rw [h2, le_div_iff₀ hd0,
      mul_comm (((2 ^ e.toNat : ℕ) : ℚ)) ((d : ℚ))]
    exact_mod_cast Iff.rfl
  · rw [decide_eq_true_eq]
    have h2 : (2 : ℚ) ^ e = ((2 ^ (-e).toNat : ℕ) : ℚ)⁻¹ := by
      have hcast : ((2 ^ (-e).toNat : ℕ) : ℚ) =
          (2 : ℚ) ^ ((-e).toNat : ℕ) := by
        push_cast
        ring
      rw [hcast, ← zpow_natCast (2 : ℚ) (-e).toNat, ← zpow_neg]
      congr 1
      omega
    have hp : (0 : ℚ) < ((2 ^ (-e).toNat : ℕ) : ℚ) := by
      exact_mod_cast Nat.two_pow_pos (-e).toNat
    rw [h2, inv_eq_one_div, div_le_div_iff₀ hp hd0, one_mul]
    exact_mod_cast Iff.rfl

/-- `flog2 n d` is `⌊log2 (n / d)⌋`: the quotient lies between
`2 ^ flog2 n d` and `2 ^ (flog2 n d + 1)`. -/
theorem flog2_spec (n d : ℕ) (hn : 1 ≤ n) (hd : 1 ≤ d) :
    (2 : ℚ) ^ flog2 n d ≤ (n : ℚ) / d ∧
      (n : ℚ) / d < (2 : ℚ) ^ (flog2 n d + 1) := by
  have hd0 : (0 : ℚ) < (d : ℚ) := by exact_mod_cast hd
  obtain ⟨hnl, hnu⟩ := ilog2_spec n hn
  obtain ⟨hdl, hdu⟩ := ilog2_spec d hd
  have hnuq : (n : ℚ) < (2 : ℚ) ^ ((ilog2 n : ℤ) + 1) := by
    have hexp : ((ilog2 n : ℤ) + 1) = ((ilog2 n + 1 : ℕ) : ℤ) := by
      push_cast
      ring
    rw [hexp, zpow_natCast]
    exact_mod_cast hnu
  have hnlq : (2 : ℚ) ^ ((ilog2 n : ℤ)) ≤ (n : ℚ) := by
    rw [zpow_natCast]
    exact_mod_cast hnl
  have hduq : (d : ℚ) < (2 : ℚ) ^ ((ilog2 d : ℤ) + 1) := by
    have hexp : ((ilog2 d : ℤ) + 1) = ((ilog2 d + 1 : ℕ) : ℤ) := by
      push_cast
      ring
    rw [hexp, zpow_natCast]
    exact_mod_cast hdu
  have hdlq : (2 : ℚ) ^ ((ilog2 d : ℤ)) ≤ (d : ℚ) := by
    rw [zpow_natCast]
    exact_mod_cast hdl
  rw [flog2]
  split_ifs with hle
  · refine ⟨(le2pow_iff _ n d hd).mp hle, ?_⟩
    rw [div_lt_iff₀ hd0]
    have hsplit : (2 : ℚ) ^ ((ilog2 n : ℤ) + 1) =
        (2 : ℚ) ^ ((ilog2 n : ℤ) - (ilog2 d : ℤ) + 1) *
          (2 : ℚ) ^ ((ilog2 d : ℤ)) := by
      rw [← zpow_add₀ (by norm_num : (2 : ℚ) ≠ 0)]
      congr 1
      ring
    have hp : (0 : ℚ) < (2 : ℚ) ^ ((ilog2 n : ℤ) - (ilog2 d : ℤ) + 1) :=
      zpow_pos (by norm_num) _
    calc (n : ℚ) < (2 : ℚ) ^ ((ilog2 n : ℤ) + 1) := hnuq
    _ = (2 : ℚ) ^ ((ilog2 n : ℤ) - (ilog2 d : ℤ) + 1) *
        (2 : ℚ) ^ ((ilog2 d : ℤ)) := hsplit
    _ ≤ (2 : ℚ) ^ ((ilog2 n : ℤ) - (ilog2 d : ℤ) + 1) * (d : ℚ) :=
        mul_le_mul_of_nonneg_left hdlq (le_of_lt hp)
  · constructor
    · rw [le_div_iff₀ hd0]
      have hsplit : (2 : ℚ) ^ ((ilog2 n : ℤ) - (ilog2 d : ℤ) - 1) *
          (2 : ℚ) ^ ((ilog2 d : ℤ) + 1) = (2 : ℚ) ^ ((ilog2 n : ℤ)) := by
        rw [← zpow_add₀ (by norm_num : (2 : ℚ) ≠ 0)]
        congr 1
        ring
      have hp : (0 : ℚ) <
          (2 : ℚ) ^ ((ilog2 n : ℤ) - (ilog2 d : ℤ) - 1) :=
        zpow_pos (by norm_num) _
      calc (2 : ℚ) ^ ((ilog2 n : ℤ) - (ilog2 d : ℤ) - 1) * (d : ℚ)
          ≤ (2 : ℚ) ^ ((ilog2 n : ℤ) - (ilog2 d : ℤ) - 1) *
            (2 : ℚ) ^ ((ilog2 d : ℤ) + 1) :=
          mul_le_mul_of_nonneg_left (le_of_lt hduq) (le_of_lt hp)
      _ = (2 : ℚ) ^ ((ilog2 n : ℤ)) := hsplit
      _ ≤ (n : ℚ) := hnlq
    · have hlt : ¬ (2 : ℚ) ^ ((ilog2 n : ℤ) - (ilog2 d : ℤ)) ≤
          (n : ℚ) / d := fun hcon =>
        hle ((le2pow_iff _ n d hd).mpr hcon)
      have hexp : (ilog2 n : ℤ) - (ilog2 d : ℤ) - 1 + 1 =
          (ilog2 n : ℤ) - (ilog2 d : ℤ) := by ring
      rw [hexp]
      exact lt_of_not_le hlt

/-- Every word produced by `wsplitAux` is nonempty: a word is only
emitted when the accumulator is nonempty. -/
theorem mem_wsplitAux_ne_empty (l : List Char) :
    ∀ acc, ∀ w ∈ wsplitAux l acc, w ≠ "" := by
  induction l with
  | nil =>
    intro acc w hw
    by_cases hacc : acc = [] <;> simp [wsplitAux, hacc] at hw
    subst hw
    simp [String.ext_iff, hacc]
  | cons c cs ih =>
    intro acc w hw
    by_cases hws : c.isWhitespace <;> by_cases hacc : acc = [] <;>
      simp [wsplitAux, hws, hacc] at hw
    · exact ih [] w hw
    · rcases hw with hw | hw
      · subst hw
        simp [String.ext_iff, hacc]
      · exact ih [] w hw
    · exact ih [c] w hw
    · exact ih (c :: acc) w hw

/-- `rndNE` is within half of the exact quotient. -/
theorem rndNE_spec (p q : ℕ) (hq : 1 ≤ q) :
    |((rndNE p q : ℕ) : ℚ) - (p : ℚ) / q| ≤ 1 / 2 := by
  have hq0 : (0 : ℚ) < (q : ℚ) := by exact_mod_cast hq
  have hmod : q * (p / q) + p % q = p := Nat.div_add_mod p q
  have hcast : ((q * (p / q) + p % q : ℕ) : ℚ) = (p : ℚ) := by
    exact_mod_cast hmod
  have hpq : (p : ℚ) / q = ((p / q : ℕ) : ℚ) + ((p % q : ℕ) : ℚ) / q := by
    rw [← hcast]
    push_cast
    rw [add_div, mul_div_cancel_left₀ _ (ne_of_gt hq0)]
  have hR0 : (0 : ℚ) ≤ ((p % q : ℕ) : ℚ) / q := by positivity
  simp only [rndNE]
  split_ifs with h1 h2 h3
  · have hhalf : ((p % q : ℕ) : ℚ) / q ≤ 1 / 2 := by
      rw [div_le_div_iff₀ hq0 (by norm_num)]
      have hc : (2 : ℚ) * ((p % q : ℕ) : ℚ) ≤ (q : ℚ) := by
        exact_mod_cast (by omega : 2 * (p % q) ≤ q)
      linarith
    rw [hpq]
    have heq : ((p / q : ℕ) : ℚ) -
        (((p / q : ℕ) : ℚ) + ((p % q : ℕ) : ℚ) / q) =
        -(((p % q : ℕ) : ℚ) / q) := by ring
    rw [heq, abs_neg, abs_of_nonneg hR0]
    exact hhalf
  · have hhalf : 1 / 2 ≤ ((p % q : ℕ) : ℚ) / q := by
      rw [div_le_div_iff₀ (by norm_num) hq0]
      have hc : (q : ℚ) ≤ 2 * ((p % q : ℕ) : ℚ) := by
        exact_mod_cast (by omega : q ≤ 2 * (p % q))
      linarith
    have hlt1 : ((p % q : ℕ) : ℚ) / q < 1 := by
      rw [div_lt_one hq0]
      exact_mod_cast Nat.mod_lt p (by omega)
    rw [hpq]
    push_cast
    have heq : ((p / q : ℕ) : ℚ) + 1 -
        (((p / q : ℕ) : ℚ) + ((p % q : ℕ) : ℚ) / q) =
        1 - ((p % q : ℕ) : ℚ) / q := by ring
    rw [heq, abs_of_nonneg (by linarith)]
    linarith
  · have htie : (2 : ℚ) * ((p % q : ℕ) : ℚ) = (q : ℚ) := by
      exact_mod_cast (by omega : 2 * (p % q) = q)
    have hhalf : ((p % q : ℕ) : ℚ) / q = 1 / 2 := by
      rw [div_eq_div_iff (ne_of_gt hq0) (by norm_num : (2 : ℚ) ≠ 0)]
      linarith
    rw [hpq]
    have heq : ((p / q : ℕ) : ℚ) -
        (((p / q : ℕ) : ℚ) + ((p % q : ℕ) : ℚ) / q) =
        -(((p % q : ℕ) : ℚ) / q) := by ring
    rw [heq, abs_neg, abs_of_nonneg hR0, hhalf]
  · have htie : (2 : ℚ) * ((p % q : ℕ) : ℚ) = (q : ℚ) := by
      exact_mod_cast (by omega : 2 * (p % q) = q)
    have hhalf : ((p % q : ℕ) : ℚ) / q = 1 / 2 := by
      rw [div_eq_div_iff (ne_of_gt hq0) (by norm_num : (2 : ℚ) ≠ 0)]
      linarith
    rw [hpq]
    push_cast
    have heq : ((p / q : ℕ) : ℚ) + 1 -
        (((p / q : ℕ) : ℚ) + ((p % q : ℕ) : ℚ) / q) =
        1 - ((p % q : ℕ) : ℚ) / q := by ring
    rw [heq, hhalf]
    rw [abs_le]
    constructor <;> norm_num

/-- Core estimate shared by the two branches of `roundFrac`: when the
scaled fraction `P / Q` equals `(n / d) · 2 ^ (52 - e)` with
`2 ^ e ≤ n / d`, rounding `P / Q` and rescaling lands within relative
error `2 ^ -53` of `n / d`, and the mantissa is at least 1. -/
theorem roundFrac_core (P Q : ℕ) (x : ℚ) (e : ℤ) (hQ : 1 ≤ Q)
    (hPQ : ((P : ℕ) : ℚ) / Q = x * (2 : ℚ) ^ ((52 : ℤ) - e))
    (hfl : (2 : ℚ) ^ e ≤ x) :
    |((rndNE P Q : ℕ) : ℚ) * (2 : ℚ) ^ (e - 52) - x| ≤ x / 2 ^ 53 ∧
      1 ≤ rndNE P Q := by
  have h2 : (2 : ℚ) ≠ 0 := by norm_num
  have hr := rndNE_spec P Q hQ
  have hcollapse : (2 : ℚ) ^ ((52 : ℤ) - e) * (2 : ℚ) ^ (e - 52) = 1 := by
    rw [← zpow_add₀ h2]
    norm_num
  have hscale0 : (0 : ℚ) < (2 : ℚ) ^ (e - 52) := zpow_pos (by norm_num) _
  have hdiff : ((rndNE P Q : ℕ) : ℚ) * (2 : ℚ) ^ (e - 52) - x =
      (((rndNE P Q : ℕ) : ℚ) - ((P : ℕ) : ℚ) / Q) * (2 : ℚ) ^ (e - 52) := by
    rw [sub_mul, hPQ, mul_assoc, hcollapse, mul_one]
  have hb1 : |((rndNE P Q : ℕ) : ℚ) * (2 : ℚ) ^ (e - 52) - x| ≤
      (1 / 2) * (2 : ℚ) ^ (e - 52) := by
    rw [hdiff, abs_mul, abs_of_pos hscale0]
    exact mul_le_mul_of_nonneg_right hr (le_of_lt hscale0)
  have hid : (1 / 2 : ℚ) * (2 : ℚ) ^ (e - 52) =
      (2 : ℚ) ^ e / (2 : ℚ) ^ (53 : ℤ) := by
    have l2 : (2 : ℚ) ^ e / (2 : ℚ) ^ (53 : ℤ) = (2 : ℚ) ^ (e - 53) := by
      rw [div_eq_mul_inv, ← zpow_neg, ← zpow_add₀ h2, ← sub_eq_add_neg]
    have l1 : (1 / 2 : ℚ) = (2 : ℚ) ^ (-1 : ℤ) := by
      rw [zpow_neg, zpow_one, one_div]
    rw [l2, l1, ← zpow_add₀ h2]
    congr 1
    ring
  have hto : ((2 : ℚ) ^ (53 : ℤ)) = (2 ^ 53 : ℚ) := by
    rw [show ((53 : ℤ)) = ((53 : ℕ) : ℤ) from rfl, zpow_natCast]
  constructor
  · calc |((rndNE P Q : ℕ) : ℚ) * (2 : ℚ) ^ (e - 52) - x|
        ≤ (1 / 2) * (2 : ℚ) ^ (e - 52) := hb1
    _ = (2 : ℚ) ^ e / (2 : ℚ) ^ (53 : ℤ) := hid
    _ ≤ x / (2 : ℚ) ^ (53 : ℤ) := by
        have hc : (0 : ℚ) < (2 : ℚ) ^ (53 : ℤ) := zpow_pos (by norm_num) _
        exact (div_le_div_right hc).mpr hfl
    _ = x / 2 ^ 53 := by rw [hto]
  · have hS : (2 : ℚ) ^ ((52 : ℤ)) ≤ ((P : ℕ) : ℚ) / Q := by
      rw [hPQ]
      calc (2 : ℚ) ^ ((52 : ℤ)) = (2 : ℚ) ^ e * (2 : ℚ) ^ ((52 : ℤ) - e) := by
            rw [← zpow_add₀ h2]
            congr 1
            ring
      _ ≤ x * (2 : ℚ) ^ ((52 : ℤ) - e) :=
          mul_le_mul_of_nonneg_right hfl
            (le_of_lt (zpow_pos (by norm_num) _))
    have h52 : (4 : ℚ) ≤ (2 : ℚ) ^ ((52 : ℤ)) := by
      rw [show ((52 : ℤ)) = ((52 : ℕ) : ℤ) from rfl, zpow_natCast]
      norm_num
    have hlow := (abs_le.mp hr).1
    have hge : (1 : ℚ) ≤ ((rndNE P Q : ℕ) : ℚ) := by linarith
    exact_mod_cast hge

/-- `roundFrac` correctly rounds `n / d` with relative error at most
`2 ^ -53`, and its mantissa is at least 1. -/
theorem roundFrac_spec (n d : ℕ) (hn : 1 ≤ n) (hd : 1 ≤ d) :
    |dval (roundFrac n d) - (n : ℚ) / d| ≤ ((n : ℚ) / d) / 2 ^ 53 ∧
      1 ≤ (roundFrac n d).1 := by
  have hd0 : (0 : ℚ) < (d : ℚ) := by exact_mod_cast hd
  obtain ⟨hfl, hfu⟩ := flog2_spec n d hn hd
  by_cases hs : 0 ≤ 52 - flog2 n d
  · have hPQ : ((n * 2 ^ (52 - flog2 n d).toNat : ℕ) : ℚ) / d =
        (n : ℚ) / d * (2 : ℚ) ^ ((52 : ℤ) - flog2 n d) := by
      have hcast : ((2 ^ (52 - flog2 n d).toNat : ℕ) : ℚ) =
          (2 : ℚ) ^ ((52 - flog2 n d).toNat : ℕ) := by
        push_cast
        ring
      have hexp : (2 : ℚ) ^ ((52 : ℤ) - flog2 n d) =
          ((2 ^ (52 - flog2 n d).toNat : ℕ) : ℚ) := by
        rw [hcast, ← zpow_natCast (2 : ℚ) (52 - flog2 n d).toNat]
        congr 1
        omega
      rw [hexp]
      push_cast
      ring
    have hcore := roundFrac_core (n * 2 ^ (52 - flog2 n d).toNat) d
      ((n : ℚ) / d) (flog2 n d) hd hPQ hfl
    have hrf : roundFrac n d =
        (rndNE (n * 2 ^ (52 - flog2 n d).toNat) d, flog2 n d - 52) := by
      simp only [roundFrac, if_pos hs]
    rw [hrf, dval]
    exact hcore
  · have hQ1 : 1 ≤ d * 2 ^ (flog2 n d - 52).toNat := by
      have hp := Nat.two_pow_pos (flog2 n d - 52).toNat
      have := Nat.mul_le_mul hd hp
      omega
    have hPQ : ((n : ℕ) : ℚ) / ((d * 2 ^ (flog2 n d - 52).toNat : ℕ) : ℚ) =
        (n : ℚ) / d * (2 : ℚ) ^ ((52 : ℤ) - flog2 n d) := by
      have hcast : ((2 ^ (flog2 n d - 52).toNat : ℕ) : ℚ) =
          (2 : ℚ) ^ ((flog2 n d - 52).toNat : ℕ) := by
        push_cast
        ring
      have hexp : (2 : ℚ) ^ ((52 : ℤ) - flog2 n d) =
          (((2 ^ (flog2 n d - 52).toNat : ℕ) : ℚ))⁻¹ := by
        rw [hcast, ← zpow_natCast (2 : ℚ) (flog2 n d - 52).toNat,
          ← zpow_neg]
        congr 1
        omega
      have hpow0 : ((2 ^ (flog2 n d - 52).toNat : ℕ) : ℚ) ≠ 0 := by
        exact_mod_cast Nat.pos_iff_ne_zero.mp (Nat.two_pow_pos _)
      rw [hexp]
      push_cast
      field_simp
    have hcore := roundFrac_core n (d * 2 ^ (flog2 n d - 52).toNat)
      ((n : ℚ) / d) (flog2 n d) hQ1 hPQ hfl
    have hrf : roundFrac n d =
        (rndNE n (d * 2 ^ (flog2 n d - 52).toNat), flog2 n d - 52) := by
      simp only [roundFrac, if_neg hs]
    rw [hrf, dval]
    exact hcore

/-- Truncating the value of a nonnegative mantissa/exponent pair is
its floor. -/
theorem floor_displayDval (mk : ℕ × ℤ) :
    ((displayDval mk : ℕ) : ℤ) = ⌊dval mk⌋ := by
  obtain ⟨m, k⟩ := mk
  simp only [displayDval, dval]
  split_ifs with h
  · have hcast : ((2 ^ k.toNat : ℕ) : ℚ) = (2 : ℚ) ^ (k.toNat : ℕ) := by
      push_cast
      ring
    have hexp : (2 : ℚ) ^ (k : ℤ) = ((2 ^ k.toNat : ℕ) : ℚ) := by
      rw [hcast, ← zpow_natCast (2 : ℚ) k.toNat]
      congr 1
      omega
    rw [hexp, ← Nat.cast_mul, Int.floor_natCast]
  · have hcast : ((2 ^ (-k).toNat : ℕ) : ℚ) =
        (2 : ℚ) ^ ((-k).toNat : ℕ) := by
      push_cast
      ring
    have hexp : (2 : ℚ) ^ (k : ℤ) = (((2 ^ (-k).toNat : ℕ) : ℚ))⁻¹ := by
      rw [hcast, ← zpow_natCast (2 : ℚ) (-k).toNat, ← zpow_neg]
      congr 1
      omega
    rw [hexp, ← div_eq_mul_inv,
      ← Nat.floor_div_eq_div (α := ℚ) m (2 ^ (-k).toNat)]
    exact Int.natCast_floor_eq_floor (by positivity)

/-- Shared final estimate: if `n2 / d2` represents exactly 100 times
the rounded quotient, then rounding it again and truncating lands
within one of `⌊100 a / t⌋`. -/
theorem pyPct_est (a t n2 d2 : ℕ) (ha1 : 1 ≤ a) (hat : a ≤ t)
    (ht : 1 ≤ t) (hn2 : 1 ≤ n2) (hd2 : 1 ≤ d2)
    (hrep : ((n2 : ℕ) : ℚ) / ((d2 : ℕ) : ℚ) =
      100 * dval (roundFrac a t)) :
    |((displayDval (roundFrac n2 d2) : ℕ) : ℤ) -
      ⌊(100 * a : ℚ) / t⌋| ≤ 1 := by
  have hA : (0 : ℚ) < (a : ℚ) := by exact_mod_cast ha1
  have hT : (0 : ℚ) < (t : ℚ) := by exact_mod_cast ht
  have hx0 : (0 : ℚ) < (a : ℚ) / t := div_pos hA hT
  have hx1 : (a : ℚ) / t ≤ 1 := by
    rw [div_le_one hT]
    exact_mod_cast hat
  obtain ⟨herr1, hm1⟩ := roundFrac_spec a t ha1 ht
  obtain ⟨herr2, hm2⟩ := roundFrac_spec n2 d2 hn2 hd2
  rw [hrep] at herr2
  have hc : ((2 : ℚ) ^ 53) = 9007199254740992 := by norm_num
  rw [hc] at herr1 herr2
  have h1 := abs_le.mp herr1
  have h2 := abs_le.mp herr2
  have hclose : |dval (roundFrac n2 d2) - 100 * ((a : ℚ) / t)| < 1 := by
    rw [abs_lt]
    constructor <;> linarith [h1.1, h1.2, h2.1, h2.2, hx0.le, hx1]
  have hp : (100 * a : ℚ) / t = 100 * ((a : ℚ) / t) := mul_div_assoc 100 _ _
  have hflo := floor_displayDval (roundFrac n2 d2)
  obtain ⟨hcl, hcu⟩ := abs_lt.mp hclose
  have hub : ⌊dval (roundFrac n2 d2)⌋ ≤ ⌊100 * ((a : ℚ) / t)⌋ + 1 := by
    have hle : dval (roundFrac n2 d2) ≤ 100 * ((a : ℚ) / t) + ((1 : ℤ) : ℚ) := by
      push_cast
      linarith
    calc ⌊dval (roundFrac n2 d2)⌋ ≤ ⌊100 * ((a : ℚ) / t) + ((1 : ℤ) : ℚ)⌋ :=
          Int.floor_le_floor hle
    _ = ⌊100 * ((a : ℚ) / t)⌋ + 1 := Int.floor_add_int _ _
  have hlb : ⌊100 * ((a : ℚ) / t)⌋ - 1 ≤ ⌊dval (roundFrac n2 d2)⌋ := by
    have hle : 100 * ((a : ℚ) / t) - ((1 : ℤ) : ℚ) ≤ dval (roundFrac n2 d2) := by
      push_cast
      linarith
    calc ⌊100 * ((a : ℚ) / t)⌋ - 1 = ⌊100 * ((a : ℚ) / t) - ((1 : ℤ) : ℚ)⌋ :=
          (Int.floor_sub_int _ _).symm
    _ ≤ ⌊dval (roundFrac n2 d2)⌋ := Int.floor_le_floor hle
  rw [hp, hflo, abs_le]
  omega

/-- The KPI percentage is always within one of the exact floor. -/
theorem pyPct_within_one (a t : ℕ) (hat : a ≤ t) (ht : 1 ≤ t) :
    |(pyPct a t : ℤ) - ⌊(100 * a : ℚ) / t⌋| ≤ 1 := by
  by_cases ha0 : a = 0
  · subst ha0
    simp [pyPct]
  · have ha1 : 1 ≤ a := by omega
    obtain ⟨herr1, hm1⟩ := roundFrac_spec a t ha1 ht
    by_cases hk : 0 ≤ (roundFrac a t).2
    · have hn2 : 1 ≤ (roundFrac a t).1 * 100 * 2 ^ (roundFrac a t).2.toNat := by
        have hpow := Nat.two_pow_pos (roundFrac a t).2.toNat
        have hmul := Nat.mul_le_mul (Nat.mul_le_mul hm1
          (by norm_num : 1 ≤ 100)) hpow
        omega
      have hcast : ((2 ^ (roundFrac a t).2.toNat : ℕ) : ℚ) =
          (2 : ℚ) ^ ((roundFrac a t).2.toNat : ℕ) := by
        push_cast
        ring
      have hexp : ((2 ^ (roundFrac a t).2.toNat : ℕ) : ℚ) =
          (2 : ℚ) ^ ((roundFrac a t).2 : ℤ) := by
        rw [hcast, ← zpow_natCast (2 : ℚ) (roundFrac a t).2.toNat]
        congr 1
        omega
      have hrep : (((roundFrac a t).1 * 100 * 2 ^ (roundFrac a t).2.toNat :
          ℕ) : ℚ) / ((1 : ℕ) : ℚ) = 100 * dval (roundFrac a t) := by
        rw [Nat.cast_one, div_one, dval]
        push_cast
        rw [← hcast, hexp]
        ring
      have hpy : pyPct a t = displayDval (roundFrac
          ((roundFrac a t).1 * 100 * 2 ^ (roundFrac a t).2.toNat) 1) := by
        simp only [pyPct, if_neg ha0, if_pos hk]
      rw [hpy]
      exact pyPct_est a t _ 1 ha1 hat ht hn2 le_rfl hrep
    · have hn2 : 1 ≤ (roundFrac a t).1 * 100 := by
        have hmul := Nat.mul_le_mul hm1 (by norm_num : 1 ≤ 100)
        omega
      have hd2 : 1 ≤ 2 ^ (-(roundFrac a t).2).toNat := by
        have hpow := Nat.two_pow_pos (-(roundFrac a t).2).toNat
        omega
      have hcast : ((2 ^ (-(roundFrac a t).2).toNat : ℕ) : ℚ) =
          (2 : ℚ) ^ ((-(roundFrac a t).2).toNat : ℕ) := by
        push_cast
        ring
      have hexp : (2 : ℚ) ^ ((roundFrac a t).2) =
          (((2 ^ (-(roundFrac a t).2).toNat : ℕ) : ℚ))⁻¹ := by
        rw [hcast, ← zpow_natCast (2 : ℚ) (-(roundFrac a t).2).toNat,
          ← zpow_neg]
        congr 1
        omega
      have hrep : (((roundFrac a t).1 * 100 : ℕ) : ℚ) /
          ((2 ^ (-(roundFrac a t).2).toNat : ℕ) : ℚ) =
          100 * dval (roundFrac a t) := by
        rw [dval, hexp, div_eq_mul_inv]
        push_cast
        ring
      have hpy : pyPct a t = displayDval (roundFrac
          ((roundFrac a t).1 * 100) (2 ^ (-(roundFrac a t).2).toNat)) := by
        simp only [pyPct, if_neg ha0, if_neg hk]
      rw [hpy]
      exact pyPct_est a t _ _ ha1 hat ht hn2 hd2 hrep

/-- The `bot` cells of the derived rows are exactly the raw `bot`
cells pushed through the replace dict, `NaN` (`none`) staying `NaN`. -/
theorem deriveAux_map_bot (hc ht : Bool) (l : List RawRecord) :
    ∀ i, (deriveAux hc ht i l).map Row.bot =
      l.map fun r => r.bot.map canonicalize := by
  induction l with
  | nil => intro i; simp [deriveAux]
  | cons r rs ih =>
    intro i
    simp only [deriveAux, List.map_cons, ih (i + 1)]
    rfl

/-- When no record carries a `confidence` field, every derived row
gets the broadcast default 80, whose band is MEDIUM. -/
theorem deriveAux_conf_default (ht : Bool) (l : List RawRecord) :
    ∀ i, ∀ row ∈ deriveAux false ht i l,
      row.confidence = some 80 ∧ row.confidence_band = "MEDIUM" := by
  induction l with
  | nil => intro i row h; simp [deriveAux] at h
  | cons r rs ih =>
    intro i row h
    simp only [deriveAux, List.mem_cons] at h
    rcases h with h | h
    · subst h
      exact ⟨rfl, by norm_num [deriveRow, bandCell, confidence_band]⟩
    · exact ih (i + 1) row h

/-- When no record carries a `ticket_id` field, the derived ids are
the synthesized 1-based sequence starting at `i + 1`. -/
theorem deriveAux_map_tid (hc : Bool) (l : List RawRecord) :
    ∀ i, (deriveAux hc false i l).map Row.ticket_id =
      (List.range l.length).map fun k => some ("TKT-" ++ toString (i + k + 1)) := by
  induction l with
  | nil => intro i; simp [deriveAux]
  | cons r rs ih =>
    intro i
    simp only [deriveAux, List.map_cons, ih (i + 1), List.length_cons,
      List.range_succ_eq_map, List.map_map]
    congr 1
    apply List.map_congr_left
    intro a ha
    simp only [Function.comp_apply]
    have harith : i + 1 + a + 1 = i + Nat.succ a + 1 := by omega
    simp [harith]

/-! ### Claim theorems -/

/-- C1: the confidence-band function is total over ℚ and maps every
`c` to exactly one band — `"LOW"` exactly when `c < 70`, `"MEDIUM"`
exactly when `70 ≤ c < 85`, `"HIGH"` exactly when `85 ≤ c < 95`,
`"VERY_HIGH"` exactly when `95 ≤ c`; in particular
`band 70 = "MEDIUM"`, `band 85 = "HIGH"`, `band 95 = "VERY_HIGH"`. -/
theorem C1_confidence_band_total (c : ℚ) :
    (confidence_band c = "LOW" ↔ c < 70) ∧
    (confidence_band c = "MEDIUM" ↔ 70 ≤ c ∧ c < 85) ∧
    (confidence_band c = "HIGH" ↔ 85 ≤ c ∧ c < 95) ∧
    (confidence_band c = "VERY_HIGH" ↔ 95 ≤ c) ∧
    confidence_band 70 = "MEDIUM" ∧ confidence_band 85 = "HIGH" ∧
    confidence_band 95 = "VERY_HIGH" := by
  have hL : c < 70 → confidence_band c = "LOW" := fun h => by
    simp [confidence_band, h]
  have hM : 70 ≤ c → c < 85 → confidence_band c = "MEDIUM" :=
    fun h1 h2 => by simp [confidence_band, h2, not_lt.mpr h1]
  have hH : 85 ≤ c → c < 95 → confidence_band c = "HIGH" := fun h1 h2 => by
    have h70 : ¬c < 70 := not_lt.mpr (le_trans (by norm_num) h1)
    simp [confidence_band, h2, h70, not_lt.mpr h1]
  have hV : 95 ≤ c → confidence_band c = "VERY_HIGH" := fun h1 => by
    have h70 : ¬c < 70 := not_lt.mpr (le_trans (by norm_num) h1)
    have h85 : ¬c < 85 := not_lt.mpr (le_trans (by norm_num) h1)
    simp [confidence_band, h70, h85, not_lt.mpr h1]
  refine ⟨⟨fun he => ?_, hL⟩, ⟨fun he => ?_, fun h => hM h.1 h.2⟩,
    ⟨fun he => ?_, fun h => hH h.1 h.2⟩, ⟨fun he => ?_, hV⟩,
    by decide, by decide, by decide⟩
  · by_contra hc
    push_neg at hc
    rcases lt_or_le c 85 with h2 | h2
    · rw [hM hc h2] at he; exact absurd he (by decide)
    rcases lt_or_le c 95 with h3 | h3
    · rw [hH h2 h3] at he; exact absurd he (by decide)
    · rw [hV h3] at he; exact absurd he (by decide)
  · rcases lt_or_le c 70 with h1 | h1
    · rw [hL h1] at he; exact absurd he (by decide)
    rcases lt_or_le c 85 with h2 | h2
    · exact ⟨h1, h2⟩
    rcases lt_or_le c 95 with h3 | h3
    · rw [hH h2 h3] at he; exact absurd he (by decide)
    · rw [hV h3] at he; exact absurd he (by decide)
  · rcases lt_or_le c 70 with h1 | h1
    · rw [hL h1] at he; exact absurd he (by decide)
    rcases lt_or_le c 85 with h2 | h2
    · rw [hM h1 h2] at he; exact absurd he (by decide)
    rcases lt_or_le c 95 with h3 | h3
    · exact ⟨h2, h3⟩
    · rw [hV h3] at he; exact absurd he (by decide)
  · rcases lt_or_le c 70 with h1 | h1
    · rw [hL h1] at he; exact absurd he (by decide)
    rcases lt_or_le c 85 with h2 | h2
    · rw [hM h1 h2] at he; exact absurd he (by decide)
    rcases lt_or_le c 95 with h3 | h3
    · rw [hH h2 h3] at he; exact absurd he (by decide)
    · exact h3

/-- Witness for C1 at the concrete inputs 69 and 97. -/
theorem C1_confidence_band_total_witness :
    confidence_band 69 = "LOW" ∧ confidence_band 97 = "VERY_HIGH" :=
  ⟨(C1_confidence_band_total 69).1.mpr (by norm_num),
   (C1_confidence_band_total 97).2.2.2.1.mpr (by norm_num)⟩

/-- C6: when the classify call returns an empty results list the
handler only warns, the session state (in particular the stored row
set) is unchanged, and no KPI aggregation runs on the empty batch
(nothing is stored, so the KPI section keeps rendering from whatever
was stored before). -/
theorem C6_empty_classify_warns (s : SessionState) :
    classifyAction [] s = (ClassifyOutcome.warned, s) ∧
    (classifyAction [] s).2.results_df = s.results_df := ⟨rfl, rfl⟩

/-- C7: if any of the four endpoint URLs is absent, startup halts with
the user-visible error before any dashboard UI is rendered (the model
of `st.error` + `st.stop()` at app.py lines 17–18, which precede all
UI statements). -/
theorem C7_missing_url_halts (u c f a : Option String)
    (h : u = none ∨ c = none ∨ f = none ∨ a = none) :
    startupCheck u c f a = StartupResult.halt
      "❌ Missing environment variables. Please configure Streamlit Secrets." := by
  rcases h with h | h | h | h <;> subst h <;> simp [startupCheck, truthy]

/-- Witness for C7 with the classify URL absent. -/
theorem C7_missing_url_halts_witness :
    startupCheck (some "http:/u") none (some "http:/f") (some "http:/a") =
      StartupResult.halt
        "❌ Missing environment variables. Please configure Streamlit Secrets." :=
  C7_missing_url_halts _ _ _ _ (Or.inr (Or.inl rfl))

/-- C8: the keywords field of every rejection payload is the
corrected-category string split on whitespace runs, order preserved
and with no empty words; `"Billing Issue"` yields
`["Billing", "Issue"]`. -/
theorem C8_reject_keywords (row : Row) (new_cat new_bot : String) :
    (rejectPayloadOf row new_cat new_bot).keywords = pySplit new_cat ∧
    (∀ w ∈ (rejectPayloadOf row new_cat new_bot).keywords, w ≠ "") ∧
    pySplit "Billing Issue" = ["Billing", "Issue"] ∧
    pySplit "  Billing   Issue  " = ["Billing", "Issue"] :=
  ⟨rfl, fun w hw => mem_wsplitAux_ne_empty _ _ w hw, by decide, by decide⟩

/-- Witness for C8 on a concrete rejection. -/
theorem C8_reject_keywords_witness :
    (rejectPayloadOf sampleRow "Billing Issue" "Others").keywords =
      pySplit "Billing Issue" ∧ ("Billing" : String) ≠ "" :=
  ⟨(C8_reject_keywords sampleRow "Billing Issue" "Others").1,
   (C8_reject_keywords sampleRow "Billing Issue" "Others").2.1 "Billing"
     (by decide)⟩

/-- C9: the approve and reject handlers issue only the Gateway call:
the session state after either action is the state before it — job
identifier, upload flag and stored row set are all unchanged. -/
theorem C9_handlers_no_mutation (row : Row) (new_cat new_bot : String)
    (s : SessionState) :
    (approveAction row s).2 = s ∧
    (rejectAction row new_cat new_bot s).2 = s ∧
    (approveAction row s).2.job_id = s.job_id ∧
    (approveAction row s).2.file_uploaded = s.file_uploaded ∧
    (approveAction row s).2.results_df = s.results_df ∧
    (rejectAction row new_cat new_bot s).2.job_id = s.job_id ∧
    (rejectAction row new_cat new_bot s).2.file_uploaded =
      s.file_uploaded ∧
    (rejectAction row new_cat new_bot s).2.results_df = s.results_df :=
  ⟨rfl, rfl, rfl, rfl, rfl, rfl, rfl, rfl⟩

/-- C10: every approval payload carries the constant
`approvedBy = "HITL_User"`, and the payload depends on the row only
through `ticket_id` and `bot`. -/
theorem C10_approvedBy_constant (row row' : Row) :
    (approvePayloadOf row).approvedBy = "HITL_User" ∧
    (row.ticket_id = row'.ticket_id → row.bot = row'.bot →
      approvePayloadOf row = approvePayloadOf row') :=
  ⟨rfl, fun h1 h2 => by simp [approvePayloadOf, h1, h2]⟩

/-- Witness for C10: two rows sharing only `ticket_id` and `bot` yield
the same payload, with `approvedBy = "HITL_User"`. -/
theorem C10_approvedBy_constant_witness :
    approvePayloadOf sampleRow = approvePayloadOf sampleRow' ∧
    (approvePayloadOf sampleRow).approvedBy = "HITL_User" :=
  ⟨(C10_approvedBy_constant sampleRow sampleRow').2 rfl rfl,
   (C10_approvedBy_constant sampleRow sampleRow').1⟩

/-- C3 counterexample: in a batch where another record carries a
`confidence`, the `confidence` column exists, so a record without the
field derives a `NaN` cell (not 80) whose band is `"VERY_HIGH"` (not
`"MEDIUM"`): `df.get("confidence", 80)` defaults per column, not per
record. -/
theorem C3_counterexample :
    derive c3Batch = Except.ok c3Rows ∧
    c3Rows.map (fun r => (r.confidence, r.confidence_band)) =
      [(some 50, "LOW"), (none, "VERY_HIGH")] ∧
    (none : Option ℚ) ≠ some 80 ∧ "VERY_HIGH" ≠ "MEDIUM" :=
  ⟨rfl, by decide, by decide, by decide⟩

/-- C3 amended: when no record of the batch has a `confidence` field
(so the whole column is absent) and the derivation succeeds, every
derived row has confidence 80 and band `"MEDIUM"`. -/
theorem C3_default_confidence (batch : List RawRecord) (rows : List Row)
    (hnoconf : ∀ r ∈ batch, r.confidence = none)
    (hok : derive batch = Except.ok rows) :
    ∀ row ∈ rows, row.confidence = some 80 ∧
      row.confidence_band = "MEDIUM" := by
  have hconf : hasConfCol batch = false := by
    rw [hasConfCol, List.any_eq_false]
    intro r hr
    simp [hnoconf r hr]
  by_cases hb : hasBotCol batch
  · simp only [derive, hb, if_true, Except.ok.injEq, hconf] at hok
    intro row hrow
    refine deriveAux_conf_default (hasTidCol batch) batch 0 row ?_
    rw [hok]
    exact hrow
  · simp [derive, hb] at hok

/-- Witness for the amended C3 on a concrete one-record batch. -/
theorem C3_default_confidence_witness :
    c3ARow.confidence = some 80 ∧ c3ARow.confidence_band = "MEDIUM" :=
  C3_default_confidence c3ABatch [c3ARow] (by decide) rfl c3ARow
    (by decide)

/-- C4 counterexample: an absent `bot` field does not become
`"ManualReview"`.  In a mixed batch the absent cell stays `NaN`
(`Series.replace` skips `NaN`), and when no record has a `bot` field
at all, `df.get` returns the plain string `"ManualReview"` and
`str.replace(dict)` raises a `TypeError`, so derivation fails
entirely. -/
theorem C4_counterexample :
    derive c4Mixed = Except.ok c4MixedRows ∧
    c4MixedRows.map Row.bot = [some "CancelGWSSCases", none] ∧
    (none : Option String) ≠ some "ManualReview" ∧
    derive c4NoBot =
      Except.error "TypeError: replace expected at least 2 arguments, got 1" :=
  ⟨rfl, by decide, by decide, rfl⟩

/-- C4 amended: the replace dict maps `"Pega Bot"` to
`"CancelGWSSCases"` and `"Mendix Bot"` to `"RMS_India_Mendix"`, leaves
every other string unchanged, and is idempotent; but an absent `bot`
field is never rewritten to `"ManualReview"`: a batch with no `bot`
column makes the derivation raise a `TypeError`, and in a batch with a
`bot` column the derived `bot` cells are exactly the raw cells mapped
through the dict, absent cells staying `NaN`. -/
theorem C4_canonicalize_behavior (s : String) :
    canonicalize "Pega Bot" = "CancelGWSSCases" ∧
    canonicalize "Mendix Bot" = "RMS_India_Mendix" ∧
    (s ≠ "Pega Bot" → s ≠ "Mendix Bot" → canonicalize s = s) ∧
    canonicalize (canonicalize s) = canonicalize s ∧
    (∀ batch, hasBotCol batch = false →
      derive batch =
        Except.error "TypeError: replace expected at least 2 arguments, got 1") ∧
    (∀ batch rows, derive batch = Except.ok rows →
      rows.map Row.bot = batch.map fun r => r.bot.map canonicalize) := by
  refine ⟨by decide, by decide, fun h1 h2 => ?_, ?_, fun batch hb => ?_,
    fun batch rows hok => ?_⟩
  · simp only [canonicalize, if_neg h1, if_neg h2]
  · by_cases h1 : s = "Pega Bot"
    · subst h1; decide
    by_cases h2 : s = "Mendix Bot"
    · subst h2; decide
    · simp only [canonicalize, if_neg h1, if_neg h2]
  · simp [derive, hb]
  · by_cases hb : hasBotCol batch
    · simp only [derive, hb, if_true, Except.ok.injEq] at hok
      rw [← hok]
      exact deriveAux_map_bot _ _ batch 0
    · simp [derive, hb] at hok

/-- Witness for the amended C4 at concrete inputs. -/
theorem C4_canonicalize_behavior_witness :
    canonicalize "SomeOtherBot" = "SomeOtherBot" ∧
    derive c4NoBot =
      Except.error "TypeError: replace expected at least 2 arguments, got 1" :=
  ⟨(C4_canonicalize_behavior "SomeOtherBot").2.2.1 (by decide) (by decide),
   (C4_canonicalize_behavior "SomeOtherBot").2.2.2.2.1 c4NoBot (by decide)⟩

/-- C5: for every batch without a `ticket_id` column whose derivation
succeeds, the derived ids are exactly `"TKT-1", …, "TKT-N"` (1-based)
in input order. -/
theorem C5_ticket_id_sequence (batch : List RawRecord) (rows : List Row)
    (hno : ∀ r ∈ batch, r.ticket_id = none)
    (hok : derive batch = Except.ok rows) :
    rows.map Row.ticket_id =
      (List.range batch.length).map fun i => some ("TKT-" ++ toString (i + 1)) := by
  have htid : hasTidCol batch = false := by
    rw [hasTidCol, List.any_eq_false]
    intro r hr
    simp [hno r hr]
  by_cases hb : hasBotCol batch
  · simp only [derive, hb, if_true, Except.ok.injEq, htid] at hok
    rw [← hok]
    simpa using deriveAux_map_tid (hasConfCol batch) batch 0
  · simp [derive, hb] at hok

/-- Witness for C5 on a concrete two-record batch. -/
theorem C5_ticket_id_sequence_witness :
    c5Rows.map Row.ticket_id =
      (List.range c5Batch.length).map fun i => some ("TKT-" ++ toString (i + 1)) :=
  C5_ticket_id_sequence c5Batch c5Rows (by decide) rfl

/-- C2 counterexample: on 100 derived rows of which 29 are automated,
the code displays `int(29/100 * 100) = 28`, one below
`floor(100 · 29 / 100) = 29`, because `29/100` rounds to a binary64
just under `0.29` and the product to a binary64 just under `29`. -/
theorem C2_counterexample :
    autoCount rows100 = 29 ∧ rows100.length = 100 ∧
    pyAutomationPct rows100 = 28 ∧
    ⌊(100 * (autoCount rows100) : ℚ) / (rows100.length : ℚ)⌋ = 29 := by
  refine ⟨by decide, by decide, by decide, ?_⟩
  have h1 : autoCount rows100 = 29 := by decide
  have h2 : rows100.length = 100 := by decide
  rw [h1, h2]
  norm_num

/-- C2 amended: the displayed automation percentage is the truncation
of the double-precision evaluation of `count / total * 100`; it is
always within one of `floor(100 · count / total)` (and equals 70 on
the 10-row, 3-manual example), but not always equal to it. -/
theorem C2_automation_pct_within_one (rows : List Row) (h : rows ≠ []) :
    |(pyAutomationPct rows : ℤ) -
      ⌊(100 * (autoCount rows) : ℚ) / (rows.length : ℚ)⌋| ≤ 1 := by
  have hlen : 0 < rows.length := List.length_pos.mpr h
  have hle : autoCount rows ≤ rows.length := List.length_filter_le _ _
  exact pyPct_within_one _ _ hle hlen

/-- Witness for the amended C2 at the spec's 10-row example (7
automated, 3 manual), where the displayed value is exactly 70. -/
theorem C2_automation_pct_within_one_witness :
    |(pyAutomationPct rows10 : ℤ) -
      ⌊(100 * (autoCount rows10) : ℚ) / (rows10.length : ℚ)⌋| ≤ 1 ∧
    pyAutomationPct rows10 = 70 ∧ autoCount rows10 = 7 :=
  ⟨C2_automation_pct_within_one rows10 (by decide), by decide, by decide⟩

end AtosAI
